import Mathlib

/-!
# Verification of the Extrator-Postgres extraction pipeline

Shallow embedding of `Extrator_postgres/database.py`: the query orchestrator
`executar_consultas`, the retrying query runner `executar_consulta`, and the
dataset materializer `processar_dados`, together with the data model they
operate on (tabular results, partitioned on-disk datasets).

Conventions of the embedding:
* a pandas/polars data frame is a schema (column name, dtype pairs) plus a
  list of rows, each row an association list from column name to cell;
* cells are either text (`Cell.s`, the textual representation pandas/polars
  would print for the value) or timedelta values (`Cell.td`, with `none`
  standing for a missing value / NaT);
* the effectful parts (database attempts, `time.sleep`, the files written by
  `pq.write_to_dataset`) are made explicit: a session is a function from the
  attempt index to the outcome of `pd.read_sql`, the runner's result records
  the number of attempts and the list of sleeps performed, and the write is
  returned as a `Materialized` value describing the partitioned layout.
-/

/-- A column name. -/
abbrev ColName := String

/-- A pandas timedelta value, at microsecond granularity (microseconds since
zero, possibly negative).  Postgres `time` values surface in pandas as
`timedelta64` columns. -/
structure Td where
  micros : Int
deriving DecidableEq

/-- Column dtype as far as the code inspects it: `pd.api.types.is_timedelta64_dtype`
(tdType), the pandas `object` dtype (objType), or anything else. -/
inductive DType
  | tdType
  | objType
  | otherType
deriving DecidableEq

/-- A cell of a data frame: either a textual value (its pandas/polars text
representation) or a timedelta (with `none` for NaT / missing). -/
inductive Cell
  | s (v : String)
  | td (v : Option Td)
deriving DecidableEq

/-- A row: an association list from column name to cell value (polars enforces
unique column names, so name-indexed rows are faithful). -/
abbrev Row := List (ColName × Cell)

/-- ASCII digit character for `n % 10`. -/
def digCh (n : Nat) : Char := Char.ofNat (48 + n % 10)

/-- Two-digit zero-padded rendering (as a char list) of a number below 100. -/
def twoL (n : Nat) : List Char := [digCh (n / 10), digCh n]

/-- Six-digit zero-padded rendering (as a char list) of a number below 1000000. -/
def sixL (n : Nat) : List Char :=
  [digCh (n / 100000), digCh (n / 10000), digCh (n / 1000),
   digCh (n / 100), digCh (n / 10), digCh n]

/-- The time-of-day token of the pandas textual representation of a
timedelta: `HH:MM:SS`, prefixed by `+` when the (floored) day component is
negative, suffixed by `.ffffff` when there is a fractional second part.
pandas prints `Timedelta` values as `<days> days <token>` with the day count
floored and the time part non-negative. -/
def timeTok (t : Td) : List Char :=
  let usPerDay : Int := 86400000000
  let d : Int := Int.ediv t.micros usPerDay
  let r : Nat := (Int.emod t.micros usPerDay).toNat
  let s : Nat := r / 1000000
  let us : Nat := r % 1000000
  (if d < 0 then ['+'] else []) ++
    twoL (s / 3600) ++ ':' :: twoL (s % 3600 / 60) ++ ':' :: twoL (s % 60) ++
    (if us == 0 then [] else '.' :: sixL us)

/-- The full pandas textual representation `str(x)` of a timedelta, as a char
list: `<days> days <time token>`. -/
def tdStrChars (t : Td) : List Char :=
  (toString (Int.ediv t.micros 86400000000)).toList ++
    (' ' :: 'd' :: 'a' :: 'y' :: 's' :: ' ' :: []) ++ timeTok t

/-- Python `s.split()[-1]`: the last whitespace-separated token of a string
(empty when the string has no token).  Only the space character is relevant
for the strings the code applies this to. -/
def lastTok (l : List Char) : List Char :=
  (((l.reverse.dropWhile (fun c => c == ' ')).takeWhile (fun c => c != ' '))).reverse

/-- The text representation of a cell (polars `cast(pl.Utf8)` / Python `str`). -/
def cellToStr : Cell → String
  | .s v => v
  | .td (some t) => String.mk (tdStrChars t)
  | .td none => "NaT"

/-- `pd.isna` on a cell: true exactly for the missing timedelta. -/
def isNaCell : Cell → Bool
  | .td none => true
  | _ => false

/-- Embedding of line 191 of `database.py`, applied to one cell of a
timedelta column: `str(x).split()[-1] if not pd.isna(x) else "00:00:00"`. -/
def tdBranchCell (c : Cell) : String :=
  if isNaCell c then "00:00:00"
  else String.mk (lastTok (cellToStr c).toList)

/-- Try to match `\d\d:\d\d:\d\d` at the head of a char list, returning the
matched eight characters. -/
def matchHMSAt : List Char → Option String
  | a :: b :: c :: d :: e :: f :: g :: h :: _ =>
    if a.isDigit && b.isDigit && c == ':' && d.isDigit && e.isDigit &&
        f == ':' && g.isDigit && h.isDigit then
      some (String.mk [a, b, c, d, e, f, g, h])
    else none
  | _ => none

/-- Leftmost match of the regex `(\d{2}:\d{2}:\d{2})` in a char list
(`Series.str.extract` semantics: scan left to right, first match wins). -/
def findHMS : List Char → Option String
  | [] => none
  | x :: rest =>
    match matchHMSAt (x :: rest) with
    | some s => some s
    | none => findHMS rest

/-- Embedding of line 193 of `database.py`, applied to one cell of an
object-dtype column: `.astype(str).str.extract(r"(\d{2}:\d{2}:\d{2})")[0].fillna("00:00:00")`. -/
def objBranchCell (c : Cell) : String :=
  ((findHMS (cellToStr c).toList).getD "00:00:00")

/-- Whether a string is exactly of the shape `\d\d:\d\d:\d\d` (a fixed-width
`HH:MM:SS` string). -/
def isHMSshape (s : String) : Bool :=
  match s.toList with
  | [a, b, c, d, e, f, g, h] =>
    a.isDigit && b.isDigit && c == ':' && d.isDigit && e.isDigit &&
      f == ':' && g.isDigit && h.isDigit
  | _ => false

/-- Association-list lookup of a cell in a row; pandas/polars index columns by
name, absent columns read as an empty text cell (never reached by the code on
well-formed frames). -/
def getV : Row → ColName → Cell
  | [], _ => .s ""
  | (c', v) :: t, c => if c' == c then v else getV t c

/-- Set (replace-or-append) a named cell in a row: the semantics of a polars
`with_columns` entry for one row. -/
def setV : Row → ColName → Cell → Row
  | [], c, v => [(c, v)]
  | (c', v') :: t, c, v =>
    if c' == c then (c, v) :: t else (c', v') :: setV t c v

/-- Set (replace-or-append) the dtype of a named column in a schema. -/
def setS : List (ColName × DType) → ColName → DType → List (ColName × DType)
  | [], c, d => [(c, d)]
  | (c', d') :: t, c, d =>
    if c' == c then (c, d) :: t else (c', d') :: setS t c d

/-- A tabular in-memory result (pandas/polars data frame): a schema of named,
typed columns and an ordered list of rows. -/
structure DataFrame where
  schema : List (ColName × DType)
  rows : List Row
deriving DecidableEq

/-- `name in df.columns` / `name in df.schema`. -/
def DataFrame.hasCol (df : DataFrame) (c : ColName) : Bool :=
  (df.schema.map Prod.fst).contains c

/-- Dtype of a column (as the pandas dtype checks of the code observe it). -/
def DataFrame.dtypeOf (df : DataFrame) (c : ColName) : DType :=
  ((df.schema.find? (fun p => p.1 == c)).map Prod.snd).getD .otherType

/-- Rewrite one column cell-wise, marking its dtype as text afterwards. -/
def DataFrame.mapCol (df : DataFrame) (c : ColName) (f : Cell → Cell) : DataFrame :=
  { schema := setS df.schema c .objType,
    rows := df.rows.map (fun r => setV r c (f (getV r c))) }

/-- Add (or overwrite) a literal text column: `pl.lit(v).alias(c)`. -/
def DataFrame.withLit (df : DataFrame) (c : ColName) (v : String) : DataFrame :=
  { schema := setS df.schema c .objType,
    rows := df.rows.map (fun r => setV r c (.s v)) }

/-- Add (or overwrite) a column computed row-wise from the current frame. -/
def DataFrame.withColF (df : DataFrame) (c : ColName) (f : Row → Cell) : DataFrame :=
  { schema := setS df.schema c .objType,
    rows := df.rows.map (fun r => setV r c (f r)) }

/-- Lines 184-187 of `database.py`: the fixed dataset-name-to-date-column
mapping, conditioned on the column being present in the schema. -/
def coluna_data (nome : String) (df : DataFrame) : Option ColName :=
  if nome == "Vendas" && df.hasCol "DataVenda" then some "DataVenda"
  else if nome == "Compras" && df.hasCol "DataEmissaoNF" then some "DataEmissaoNF"
  else none

/-- Lines 189-193 of `database.py`: normalization of the `HoraVenda` column.
On a timedelta column every value becomes `str(x).split()[-1]` (sentinel
`00:00:00` for missing values); on an object column the first
`\d\d:\d\d:\d\d` substring is extracted with the same sentinel fallback;
other dtypes are left untouched. -/
def tratarHoraVenda (df : DataFrame) : DataFrame :=
  if df.hasCol "HoraVenda" then
    match df.dtypeOf "HoraVenda" with
    | .tdType => df.mapCol "HoraVenda" (fun c => .s (tdBranchCell c))
    | .objType => df.mapCol "HoraVenda" (fun c => .s (objBranchCell c))
    | .otherType => df
  else df

/-- Lines 196-200 of `database.py`: inject the update-timestamp column and the
tenant identifier under its two column names. -/
def injetarColunas (df : DataFrame) (nowStr idemp : String) : DataFrame :=
  ((df.withLit "DataHoraAtualizacao" nowStr).withLit "idEmpresa" idemp).withLit
    "idEmp" idemp

/-- Line 203 of `database.py`: cast a column to its text representation
(`pl.col(c).cast(pl.Utf8)`). -/
def castUtf8 (df : DataFrame) (c : ColName) : DataFrame :=
  df.mapCol c (fun cell => .s (cellToStr cell))

/-- Lines 204-207 of `database.py`: derive `Ano` (4-char slice at offset 0)
and `Mes` (2-char slice at offset 5) from the text of the date column. -/
def derivarAnoMes (df : DataFrame) (c : ColName) : DataFrame :=
  (df.withColF "Ano" (fun r => .s ((cellToStr (getV r c)).take 4))).withColF
    "Mes" (fun r => .s (((cellToStr (getV r c)).drop 5).take 2))

/-- Lines 183-207 of `database.py`: everything `processar_dados` does to the
frame before the dataset-specific type adjustment. -/
def augmentar (df : DataFrame) (nome nowStr idemp : String) : DataFrame :=
  let df1 := tratarHoraVenda df
  let df2 := injetarColunas df1 nowStr idemp
  match coluna_data nome df with
  | some c => derivarAnoMes (castUtf8 df2 c) c
  | none => df2

/-- Modelled from the spec: `ajustar_tipos_dados` lives in
`dicionario_dados.py`, which is not part of the provided sources.  The spec
describes it as a pure mapping keyed by dataset name that "may add, rename,
cast, or reorder columns per dataset name" — a column-schema transformation
applied uniformly to every row, never touching the number or order of rows.
We model one dataset's adjustment as a schema transformation plus a per-row
column transformation. -/
structure TypeAdjustment where
  schema : List (ColName × DType) → List (ColName × DType)
  row : List (ColName × DType) → Row → Row

/-- Apply a dataset-specific type adjustment to a frame. -/
def applyAdj (adj : TypeAdjustment) (df : DataFrame) : DataFrame :=
  { schema := adj.schema df.schema, rows := df.rows.map (adj.row df.schema) }

/-- The identity adjustment (a dataset name with no specific rules). -/
def idAdjustment : TypeAdjustment := { schema := id, row := fun _ r => r }

/-- The partitioned on-disk dataset produced by `pq.write_to_dataset`:
its root directory, the partition column list in declared order, and the
written rows (from which the `col=value` directory layout is determined). -/
structure Materialized where
  root : String
  pcols : List ColName
  schema : List (ColName × DType)
  rows : List Row
deriving DecidableEq

/-- Modelled from the spec: the external columnar-write primitive
`pq.write_to_dataset` places each row under the nested partition directory
whose path segments are `col=value` for the partition columns in declared
order, below the dataset root. -/
def rowPartitionPath (m : Materialized) (r : Row) : String :=
  m.pcols.foldl (fun acc c => acc ++ "/" ++ c ++ "=" ++ cellToStr (getV r c)) m.root

/-- The rows written into one partition directory. -/
def partRows (m : Materialized) (p : String) : List Row :=
  m.rows.filter (fun r => rowPartitionPath m r == p)

/-- The first-level partition directory name a row lands in
(`<first partition column>=<value>`). -/
def firstSeg (m : Materialized) (r : Row) : String :=
  match m.pcols with
  | c :: _ => c ++ "=" ++ cellToStr (getV r c)
  | [] => ""

/-- Lines 227 of `database.py`: `os.listdir(pasta_consulta)` joined back onto
the root — the set of immediate child directories of the dataset root, one
level of listing. -/
def listParticoes (m : Materialized) : List String :=
  ((m.rows.map (firstSeg m)).dedup).map (fun d => m.root ++ "/" ++ d)

/-- The one exception kind `processar_dados` itself raises: the `ValueError`
for a missing mandatory `idEmpresa` column (line 213). -/
inductive PErr
  | validationError (msg : String)
deriving DecidableEq

/-- The body of `processar_dados`' `try` block (lines 180-228): augment the
frame, apply the dataset-specific adjustment, validate the mandatory tenant
column, write the partitioned dataset and list its immediate children.
Raising is modelled by `Except.error`. -/
def processar_dados_inner (adjust : String → TypeAdjustment) (idemp nowStr : String)
    (df : DataFrame) (nome pasta_temp : String) :
    Except PErr (String × List String × Materialized) :=
  let pasta_consulta := pasta_temp ++ "/" ++ nome
  let cd := coluna_data nome df
  let df4 := applyAdj (adjust nome) (augmentar df nome nowStr idemp)
  if df4.hasCol "idEmpresa" then
    let pcols := "idEmpresa" :: (if cd.isSome then ["Ano", "Mes"] else [])
    let m : Materialized := ⟨pasta_consulta, pcols, df4.schema, df4.rows⟩
    .ok (pasta_consulta, listParticoes m, m)
  else
    .error (.validationError "A coluna 'idEmpresa' é obrigatória para particionamento.")

/-- Lines 159-232 of `database.py`: `processar_dados`, whose blanket
`except Exception` handler (lines 230-232) converts any raise into the
`("", set())` sentinel.  The returned `Option Materialized` records what, if
anything, was written to disk. -/
def processar_dados (adjust : String → TypeAdjustment) (idemp nowStr : String)
    (df : DataFrame) (nome pasta_temp : String) :
    (String × List String) × Option Materialized :=
  match processar_dados_inner adjust idemp nowStr df nome pasta_temp with
  | .ok (pasta, parts, m) => ((pasta, parts), some m)
  | .error _ => (("", []), none)

/-- The outcome of one `pd.read_sql` execution attempt: a frame, a
`psycopg2.OperationalError` (the retried connectivity-error kind), or any
other exception. -/
inductive AttemptOutcome
  | ok (df : DataFrame)
  | opError
  | otherError
deriving DecidableEq

/-- The observable result of `executar_consulta`: the returned pair (dataset
path and partition set), what was written to disk, how many execution
attempts were made, and the sleeps performed (in seconds, in order). -/
structure ExecResult where
  pasta : String
  particoes : List String
  written : Option Materialized
  attempts : Nat
  sleeps : List Nat
deriving DecidableEq

/-- The `for tentativa in range(retries)` loop of `executar_consulta`
(lines 140-152): `t` counts the attempts already made, `fuel` the remaining
iterations, `sl` the sleeps performed so far.  A connectivity error sleeps 5
seconds and consumes one attempt; any other error aborts immediately; an
empty frame returns the sentinel; otherwise the frame is materialized. -/
def execLoop (attempt : Nat → AttemptOutcome) (adjust : String → TypeAdjustment)
    (idemp nowStr nome pasta_temp : String) :
    Nat → Nat → List Nat → ExecResult
  | t, 0, sl => ⟨"", [], none, t, sl⟩
  | t, fuel + 1, sl =>
    match attempt t with
    | .ok df =>
      if df.rows.isEmpty then ⟨"", [], none, t + 1, sl⟩
      else
        let r := processar_dados adjust idemp nowStr df nome pasta_temp
        ⟨r.1.1, r.1.2, r.2, t + 1, sl⟩
    | .opError => execLoop attempt adjust idemp nowStr nome pasta_temp (t + 1) fuel (sl ++ [5])
    | .otherError => ⟨"", [], none, t + 1, sl⟩

/-- Lines 133-157 of `database.py`: `executar_consulta`, with `retries = 5`. -/
def executar_consulta (attempt : Nat → AttemptOutcome) (adjust : String → TypeAdjustment)
    (idemp nowStr nome pasta_temp : String) : ExecResult :=
  execLoop attempt adjust idemp nowStr nome pasta_temp 0 5 []

/-- A Query Spec: `{name, query}`. -/
structure QuerySpec where
  name : String
  query : String
deriving DecidableEq

/-- What one `processa_consulta` task observably did: the whitespace-stripped
query name, the returned dataset path and partition set, and the identifier
of the database session it executed over. -/
structure TaskOut where
  nome : String
  pasta : String
  particoes : List String
  sessId : Nat
deriving DecidableEq

/-- An environment of database sessions: the outcome of `pd.read_sql` as a
function of the session identifier, the SQL text, and the attempt index. -/
abbrev SessionEnv := Nat → String → Nat → AttemptOutcome

/-- Python `name.replace(" ", "")`: remove every space character. -/
def stripSpaces (s : String) : String :=
  String.mk (s.toList.filter (fun c => c != ' '))

/-- Lines 96-107 of `database.py`: the per-query closure `processa_consulta`.
It strips spaces from the query name and runs `executar_consulta` over the
session it was given — in the code, always the enclosing
`conexao_persistente`. -/
def processaConsulta (env : SessionEnv) (adjust : String → TypeAdjustment)
    (idemp nowStr pasta_temp : String) (sessId : Nat) (c : QuerySpec) : TaskOut :=
  let nome := stripSpaces c.name
  let r := executar_consulta (env sessId c.query) adjust idemp nowStr nome pasta_temp
  ⟨nome, r.pasta, r.particoes, sessId⟩

/-- Insert-with-overwrite into an association list: `d[k] = v`. -/
def insertOW (l : List (String × α)) (k : String) (v : α) : List (String × α) :=
  match l with
  | [] => [(k, v)]
  | (k', v') :: t => if k' == k then (k, v) :: t else (k', v') :: insertOW t k v

/-- Dictionary lookup: `d.get(k)`. -/
def lookupD (l : List (String × α)) (k : String) : Option α :=
  (l.find? (fun p => p.1 == k)).map Prod.snd

/-- The two result dictionaries the orchestrator accumulates. -/
structure RunState where
  resultados : List (String × String)
  particoes_criadas : List (String × List String)
deriving DecidableEq

/-- Lines 116-118 / 122-124 of `database.py`: merge one task's outcome into
the result dictionaries — only when the returned path is truthy (non-empty). -/
def runStep (st : RunState) (o : TaskOut) : RunState :=
  if o.pasta ≠ "" then
    { resultados := insertOW st.resultados o.nome o.pasta,
      particoes_criadas := insertOW st.particoes_criadas o.nome o.particoes }
  else st

/-- The Run Result, extended with the session bookkeeping the claims are
about: which session each task executed over and which single session the
orchestrator opened. -/
structure RunResult where
  resultados : List (String × String)
  particoes_criadas : List (String × List String)
  sessionsUsed : List Nat
  sharedSession : Nat
deriving DecidableEq

/-- Lines 73-131 of `database.py`: `executar_consultas`.  The orchestrator
opens the single session `conexao_persistente` (modelled as session id 0) and
runs every query through `processa_consulta`.  Both branches of the
`if paralela` hand the same closure — and therefore the same shared session —
to every task; in concurrent mode results are merged in completion order,
modelled here as submission order (one admissible schedule — which session a
task uses does not depend on the schedule). -/
def executar_consultas (env : SessionEnv) (adjust : String → TypeAdjustment)
    (idemp nowStr : String) (consultas : List QuerySpec) (pasta_temp : String)
    (paralela : Bool) : RunResult :=
  let shared : Nat := 0
  let outs := consultas.map (processaConsulta env adjust idemp nowStr pasta_temp shared)
  let st :=
    if paralela then outs.foldl runStep ⟨[], []⟩
    else outs.foldl runStep ⟨[], []⟩
  ⟨st.resultados, st.particoes_criadas, outs.map TaskOut.sessId, shared⟩

/-! ## Lemmas about the retry loop -/

/-- Walking `m` consecutive connectivity failures through the retry loop
consumes `m` attempts and performs `m` five-second sleeps. -/
theorem execLoop_opError_steps (attempt : Nat → AttemptOutcome)
    (adjust : String → TypeAdjustment) (idemp nowStr nome pasta_temp : String) :
    ∀ (m t fuel : Nat) (sl : List Nat), m ≤ fuel →
      (∀ j, j < m → attempt (t + j) = .opError) →
      execLoop attempt adjust idemp nowStr nome pasta_temp t fuel sl =
        execLoop attempt adjust idemp nowStr nome pasta_temp (t + m) (fuel - m)
          (sl ++ List.replicate m 5) := by
  intro m
  induction m with
  | zero => intro t fuel sl _ _; simp
  | succ k ih =>
    intro t fuel sl hle hop
    match fuel, hle with
    | fuel + 1, _ =>
      have h0 : attempt t = .opError := by simpa using hop 0 (Nat.succ_pos k)
      have step :
          execLoop attempt adjust idemp nowStr nome pasta_temp t (fuel + 1) sl =
            execLoop attempt adjust idemp nowStr nome pasta_temp (t + 1) fuel (sl ++ [5]) := by
        simp [execLoop, h0]
      rw [step, ih (t + 1) fuel (sl ++ [5]) (by omega) (fun j hj => by
        have := hop (j + 1) (by omega)
        simpa [Nat.add_assoc, Nat.add_comm 1 j] using this)]
      have harr : t + 1 + k = t + (k + 1) := by omega
      have hfuel : fuel - k = fuel + 1 - (k + 1) := by omega
      rw [harr, hfuel, List.append_assoc]
      simp [List.replicate_succ]

/-- **C2**: for a session that raises a connectivity error
(`OperationalError`) on every execution, the Query Runner attempts the query
exactly 5 times, every sleep it performs lasts 5 seconds (one after each
failed attempt, in particular between any two consecutive attempts), and it
then returns the empty/failed sentinel (empty path, empty partition set,
nothing written) instead of raising. -/
theorem c2_retry_bound (attempt : Nat → AttemptOutcome)
    (adjust : String → TypeAdjustment) (idemp nowStr nome pasta_temp : String)
    (h : ∀ n, attempt n = .opError) :
    executar_consulta attempt adjust idemp nowStr nome pasta_temp =
      ⟨"", [], none, 5, List.replicate 5 5⟩ := by
  unfold executar_consulta
  rw [execLoop_opError_steps attempt adjust idemp nowStr nome pasta_temp 5 0 5 []
    (Nat.le_refl 5) (fun j _ => h (0 + j))]
  simp [execLoop]

/-- Witness for C2 at a concrete always-failing session. -/
theorem c2_retry_bound_witness :
    executar_consulta (fun _ => .opError) (fun _ => idAdjustment) "1" "now" "Vendas" "/tmp" =
      ⟨"", [], none, 5, List.replicate 5 5⟩ :=
  c2_retry_bound (fun _ => .opError) (fun _ => idAdjustment) "1" "now" "Vendas" "/tmp"
    (fun _ => rfl)

/-- **C5**: a failure of any kind other than the connectivity-error kind
aborts the Query Runner immediately: no further attempt is made, no backoff
sleep is performed for it (the only sleeps are the five-second ones of the
earlier connectivity failures), and the empty/failed sentinel is returned.
Moreover this terminates only that query, never the whole run: dropping a
query whose execution raises a non-connectivity error from the front of the
run leaves the Run Result's dictionaries unchanged. -/
theorem c5_other_error_aborts :
    (∀ (attempt : Nat → AttemptOutcome) (adjust : String → TypeAdjustment)
        (idemp nowStr nome pasta_temp : String) (k : Nat), k < 5 →
      (∀ j, j < k → attempt j = .opError) → attempt k = .otherError →
      executar_consulta attempt adjust idemp nowStr nome pasta_temp =
        ⟨"", [], none, k + 1, List.replicate k 5⟩) ∧
    (∀ (env : SessionEnv) (adjust : String → TypeAdjustment)
        (idemp nowStr pasta_temp : String) (paralela : Bool)
        (c1 : QuerySpec) (rest : List QuerySpec),
      env 0 c1.query 0 = .otherError →
      (executar_consultas env adjust idemp nowStr (c1 :: rest) pasta_temp paralela).resultados =
        (executar_consultas env adjust idemp nowStr rest pasta_temp paralela).resultados ∧
      (executar_consultas env adjust idemp nowStr (c1 :: rest) pasta_temp paralela).particoes_criadas =
        (executar_consultas env adjust idemp nowStr rest pasta_temp paralela).particoes_criadas) := by
  constructor
  · intro attempt adjust idemp nowStr nome pasta_temp k hk hpre hother
    unfold executar_consulta
    rw [execLoop_opError_steps attempt adjust idemp nowStr nome pasta_temp k 0 5 []
      (by omega) (fun j hj => by simpa using hpre j hj)]
    match hfuel : 5 - k, (by omega : 0 < 5 - k) with
    | fuel + 1, _ =>
      simp [execLoop, hother]
  · intro env adjust idemp nowStr pasta_temp paralela c1 rest h0
    have hout : processaConsulta env adjust idemp nowStr pasta_temp 0 c1 =
        ⟨stripSpaces c1.name, "", [], 0⟩ := by
      simp [processaConsulta, executar_consulta, execLoop, h0]
    constructor <;>
      simp [executar_consultas, hout, runStep]

/-! ## Lemmas about the result dictionaries -/

/-- Insert-with-overwrite under one key does not change lookups of other keys. -/
theorem lookupD_insertOW_ne {α : Type} (l : List (String × α)) (k n : String)
    (v : α) (h : n ≠ k) : lookupD (insertOW l k v) n = lookupD l n := by
  induction l with
  | nil =>
    have hk : (k == n) = false := by simp [Ne.symm h]
    simp [insertOW, lookupD, List.find?, hk]
  | cons p t ih =>
    obtain ⟨k', v'⟩ := p
    by_cases hk : k' = k
    · have h1 : (k == n) = false := by simp [Ne.symm h]
      have h2 : (k' == n) = false := by simp [hk, Ne.symm h]
      simp [insertOW, hk, lookupD, List.find?, h1, h2]
    · have hk' : (k' == k) = false := by simp [hk]
      by_cases hn : k' = n
      · subst hn
        simp [insertOW, hk', lookupD, List.find?]
      · have hn' : (k' == n) = false := by simp [hn]
        simpa [insertOW, hk', lookupD, List.find?, hn'] using ih

/-- If no task of a batch carries a non-empty path under a given name, folding
the batch into the result dictionaries leaves that name absent. -/
theorem lookup_foldl_runStep_none (outs : List TaskOut) (nome : String)
    (h : ∀ o ∈ outs, o.nome = nome → o.pasta = "") :
    ∀ st : RunState, lookupD st.resultados nome = none →
      lookupD st.particoes_criadas nome = none →
      lookupD (outs.foldl runStep st).resultados nome = none ∧
      lookupD (outs.foldl runStep st).particoes_criadas nome = none := by
  induction outs with
  | nil => intro st h1 h2; exact ⟨h1, h2⟩
  | cons o t ih =>
    intro st h1 h2
    have hmem : ∀ o' ∈ t, o'.nome = nome → o'.pasta = "" := fun o' ho' =>
      h o' (List.mem_cons_of_mem o ho')
    by_cases hp : o.pasta = ""
    · have : runStep st o = st := by simp [runStep, hp]
      simpa [List.foldl_cons, this] using ih hmem st h1 h2
    · have hne : o.nome ≠ nome := fun he => hp (h o (List.mem_cons_self o t) he)
      have : runStep st o =
          { resultados := insertOW st.resultados o.nome o.pasta,
            particoes_criadas := insertOW st.particoes_criadas o.nome o.particoes } := by
        simp [runStep, hp]
      refine ih hmem _ ?_ ?_ <;>
        simp [this, lookupD_insertOW_ne _ _ _ _ (Ne.symm hne), h1, h2]

/-- An execution whose first attempt returns an empty frame yields the empty
sentinel: nothing written, one attempt, no sleep. -/
theorem exec_empty_result (attempt : Nat → AttemptOutcome)
    (adjust : String → TypeAdjustment) (idemp nowStr nome pasta_temp : String)
    (df : DataFrame) (h0 : attempt 0 = .ok df) (hrows : df.rows = []) :
    executar_consulta attempt adjust idemp nowStr nome pasta_temp =
      ⟨"", [], none, 1, []⟩ := by
  simp [executar_consulta, execLoop, h0, hrows]

/-- **C6**: a query whose raw result is empty makes the Query Runner return
the empty sentinel (empty path, empty partition set) without error and
without writing any materialized dataset, and the orchestrator's Run Result
then contains no entry for that query name in either `resultados`
(dataset_paths) or `particoes_criadas` (partitions) — the run itself still
returns normally. -/
theorem c6_empty_result_no_entry :
    (∀ (attempt : Nat → AttemptOutcome) (adjust : String → TypeAdjustment)
        (idemp nowStr nome pasta_temp : String) (df : DataFrame),
      attempt 0 = .ok df → df.rows = [] →
      executar_consulta attempt adjust idemp nowStr nome pasta_temp =
        ⟨"", [], none, 1, []⟩) ∧
    (∀ (env : SessionEnv) (adjust : String → TypeAdjustment)
        (idemp nowStr pasta_temp : String) (paralela : Bool)
        (consultas : List QuerySpec) (nome : String),
      (∀ c ∈ consultas, stripSpaces c.name = nome →
        ∃ df, env 0 c.query 0 = .ok df ∧ df.rows = []) →
      lookupD (executar_consultas env adjust idemp nowStr consultas pasta_temp
        paralela).resultados nome = none ∧
      lookupD (executar_consultas env adjust idemp nowStr consultas pasta_temp
        paralela).particoes_criadas nome = none) := by
  constructor
  · intro attempt adjust idemp nowStr nome pasta_temp df h0 hrows
    exact exec_empty_result attempt adjust idemp nowStr nome pasta_temp df h0 hrows
  · intro env adjust idemp nowStr pasta_temp paralela consultas nome hempty
    have hall : ∀ o ∈ consultas.map
        (processaConsulta env adjust idemp nowStr pasta_temp 0), o.nome = nome →
        o.pasta = "" := by
      intro o ho hnome
      obtain ⟨c, hc, hco⟩ := List.mem_map.mp ho
      obtain ⟨df, hdf, hrows⟩ := hempty c hc (by rw [← hco] at hnome; exact hnome)
      have := exec_empty_result (env 0 c.query) adjust idemp nowStr
        (stripSpaces c.name) pasta_temp df hdf hrows
      rw [← hco]
      simp [processaConsulta, this]
    have := lookup_foldl_runStep_none _ nome hall ⟨[], []⟩ (by simp [lookupD])
      (by simp [lookupD])
    simpa [executar_consultas] using this

/-- Witness for C6 at a concrete run: one query named `Compras` whose result
is empty, alongside nothing else. -/
theorem c6_empty_result_no_entry_witness :
    executar_consulta (fun _ => .ok ⟨[("A", .objType)], []⟩) (fun _ => idAdjustment)
      "1" "now" "Compras" "/tmp" = ⟨"", [], none, 1, []⟩ ∧
    lookupD (executar_consultas (fun _ _ _ => .ok ⟨[("A", .objType)], []⟩)
      (fun _ => idAdjustment) "1" "now" [⟨"Compras", "select 1"⟩] "/tmp"
      false).resultados "Compras" = none :=
  ⟨c6_empty_result_no_entry.1 (fun _ => .ok ⟨[("A", .objType)], []⟩)
      (fun _ => idAdjustment) "1" "now" "Compras" "/tmp" ⟨[("A", .objType)], []⟩ rfl rfl,
    (c6_empty_result_no_entry.2 (fun _ _ _ => .ok ⟨[("A", .objType)], []⟩)
      (fun _ => idAdjustment) "1" "now" "/tmp" false [⟨"Compras", "select 1"⟩] "Compras"
      (fun _ _ _ => ⟨⟨[("A", .objType)], []⟩, rfl, rfl⟩)).1⟩

/-- **C3**: contrary to the claim (and to the function's own docstring, which
promises that in parallel mode each thread opens and closes its own
connection), every worker task in concurrent mode executes over the single
shared session `conexao_persistente` opened by the orchestrator: the list of
sessions used is one copy of the shared session per query. -/
theorem c3_workers_share_session (env : SessionEnv) (adjust : String → TypeAdjustment)
    (idemp nowStr : String) (consultas : List QuerySpec) (pasta_temp : String) :
    (executar_consultas env adjust idemp nowStr consultas pasta_temp true).sessionsUsed =
      List.replicate consultas.length
        ((executar_consultas env adjust idemp nowStr consultas pasta_temp
          true).sharedSession) := by
  simp only [executar_consultas, List.map_map]
  have : (TaskOut.sessId ∘ processaConsulta env adjust idemp nowStr pasta_temp 0) =
      fun _ => 0 := by
    funext c
    simp [processaConsulta]
  rw [this, List.map_const']

/-- **C10**: the Dataset Materializer never raises — any exception inside its
body, in particular the `ValueError` raised when the mandatory `idEmpresa`
column is absent after adjustment, is caught by its own blanket handler and
mapped to the sentinel (empty path, empty set, nothing written).  As a
consequence the Query Runner's return value for a materialization/validation
failure is the very same `ExecResult` as for an empty query result. -/
theorem c10_blanket_handler :
    (∀ (adjust : String → TypeAdjustment) (idemp nowStr : String) (df : DataFrame)
        (nome pasta_temp : String) (e : PErr),
      processar_dados_inner adjust idemp nowStr df nome pasta_temp = .error e →
      processar_dados adjust idemp nowStr df nome pasta_temp = (("", []), none)) ∧
    (∀ (adjust : String → TypeAdjustment) (idemp nowStr : String) (df : DataFrame)
        (nome pasta_temp : String),
      (applyAdj (adjust nome) (augmentar df nome nowStr idemp)).hasCol "idEmpresa" = false →
      processar_dados_inner adjust idemp nowStr df nome pasta_temp =
        .error (.validationError
          "A coluna 'idEmpresa' é obrigatória para particionamento.") ∧
      processar_dados adjust idemp nowStr df nome pasta_temp = (("", []), none)) ∧
    (∀ (attempt1 attempt2 : Nat → AttemptOutcome) (adjust : String → TypeAdjustment)
        (idemp nowStr nome pasta_temp : String) (df1 df2 : DataFrame),
      attempt1 0 = .ok df1 → df1.rows = [] →
      attempt2 0 = .ok df2 → df2.rows ≠ [] →
      (applyAdj (adjust nome) (augmentar df2 nome nowStr idemp)).hasCol "idEmpresa" = false →
      executar_consulta attempt1 adjust idemp nowStr nome pasta_temp =
        executar_consulta attempt2 adjust idemp nowStr nome pasta_temp) := by
  refine ⟨?_, ?_, ?_⟩
  · intro adjust idemp nowStr df nome pasta_temp e herr
    simp [processar_dados, herr]
  · intro adjust idemp nowStr df nome pasta_temp hmiss
    have hinner : processar_dados_inner adjust idemp nowStr df nome pasta_temp =
        .error (.validationError
          "A coluna 'idEmpresa' é obrigatória para particionamento.") := by
      simp [processar_dados_inner, hmiss]
    exact ⟨hinner, by simp [processar_dados, hinner]⟩
  · intro attempt1 attempt2 adjust idemp nowStr nome pasta_temp df1 df2 h1 hr1 h2 hr2 hmiss
    have hinner : processar_dados_inner adjust idemp nowStr df2 nome pasta_temp =
        .error (.validationError
          "A coluna 'idEmpresa' é obrigatória para particionamento.") := by
      simp [processar_dados_inner, hmiss]
    have hd : processar_dados adjust idemp nowStr df2 nome pasta_temp = (("", []), none) := by
      simp [processar_dados, hinner]
    have left := exec_empty_result attempt1 adjust idemp nowStr nome pasta_temp df1 h1 hr1
    have right : executar_consulta attempt2 adjust idemp nowStr nome pasta_temp =
        ⟨"", [], none, 1, []⟩ := by
      have hne : df2.rows.isEmpty = false := by
        cases hrows : df2.rows with
        | nil => exact absurd hrows hr2
        | cons a t => simp
      simp [executar_consulta, execLoop, h2, hne, hd]
    rw [left, right]

/-- An adjustment that strips every column — in particular the tenant
identifier (a dataset-name adjustment of the kind C4's spec sentence
describes). -/
def dropAllAdj : TypeAdjustment := { schema := fun _ => [], row := fun _ _ => [] }

/-- A one-row, one-column frame used as a concrete non-empty raw result. -/
def dfOneRow : DataFrame :=
  { schema := [("Produto", .objType)], rows := [[("Produto", .s "a")]] }

/-- Witness for C10: with an adjustment that strips `idEmpresa`, the runner's
result on a non-empty frame coincides with its result on an empty frame. -/
theorem c10_blanket_handler_witness :
    executar_consulta (fun _ => .ok ⟨[("Produto", .objType)], []⟩)
      (fun _ => dropAllAdj) "1" "now" "Vendas" "/tmp" =
    executar_consulta (fun _ => .ok dfOneRow)
      (fun _ => dropAllAdj) "1" "now" "Vendas" "/tmp" :=
  c10_blanket_handler.2.2 (fun _ => .ok ⟨[("Produto", .objType)], []⟩)
    (fun _ => .ok dfOneRow) (fun _ => dropAllAdj) "1" "now" "Vendas" "/tmp"
    ⟨[("Produto", .objType)], []⟩ dfOneRow rfl rfl rfl (by decide) rfl

/-- A joined path `a ++ "/" ++ b` is never the empty string (so a successful
materialization always produces a truthy path). -/
theorem append_slash_ne_empty (a b : String) : a ++ "/" ++ b ≠ "" := by
  intro h
  have := congrArg String.length h
  simp [String.length_append] at this
  exact absurd this.1.2 (by decide)

/-- On a successful validation the materializer returns the dataset root
`<temp>/<nome>` and records a written dataset. -/
theorem processar_dados_ok_path (adjust : String → TypeAdjustment)
    (idemp nowStr : String) (df : DataFrame) (nome pasta_temp : String)
    (h : (applyAdj (adjust nome) (augmentar df nome nowStr idemp)).hasCol "idEmpresa" = true) :
    (processar_dados adjust idemp nowStr df nome pasta_temp).1.1 =
      pasta_temp ++ "/" ++ nome := by
  simp [processar_dados, processar_dados_inner, h]

/-- **C4**: if, after schema augmentation and the dataset-specific type
adjustment, the `idEmpresa` column is absent, materialization fails with the
ValidationError (`ValueError`) of line 213; at the run level this failure is
converted into an empty/failed result for the offending query only — its name
is absent from the Run Result while a sibling query of the same run still
succeeds and reports its dataset root. -/
theorem c4_validation_error_isolated :
    (∀ (adjust : String → TypeAdjustment) (idemp nowStr : String) (df : DataFrame)
        (nome pasta_temp : String),
      (applyAdj (adjust nome) (augmentar df nome nowStr idemp)).hasCol "idEmpresa" = false →
      processar_dados_inner adjust idemp nowStr df nome pasta_temp =
        .error (.validationError
          "A coluna 'idEmpresa' é obrigatória para particionamento.")) ∧
    (∀ (env : SessionEnv) (adjust : String → TypeAdjustment)
        (idemp nowStr pasta_temp : String) (paralela : Bool)
        (c1 c2 : QuerySpec) (df1 df2 : DataFrame),
      stripSpaces c1.name ≠ stripSpaces c2.name →
      env 0 c1.query 0 = .ok df1 → df1.rows ≠ [] →
      (applyAdj (adjust (stripSpaces c1.name))
        (augmentar df1 (stripSpaces c1.name) nowStr idemp)).hasCol "idEmpresa" = false →
      env 0 c2.query 0 = .ok df2 → df2.rows ≠ [] →
      (applyAdj (adjust (stripSpaces c2.name))
        (augmentar df2 (stripSpaces c2.name) nowStr idemp)).hasCol "idEmpresa" = true →
      lookupD (executar_consultas env adjust idemp nowStr [c1, c2] pasta_temp
        paralela).resultados (stripSpaces c1.name) = none ∧
      lookupD (executar_consultas env adjust idemp nowStr [c1, c2] pasta_temp
        paralela).resultados (stripSpaces c2.name) =
        some (pasta_temp ++ "/" ++ stripSpaces c2.name)) := by
  constructor
  · intro adjust idemp nowStr df nome pasta_temp hmiss
    simp [processar_dados_inner, hmiss]
  · intro env adjust idemp nowStr pasta_temp paralela c1 c2 df1 df2 hnames h1 hr1 hmiss h2 hr2 hok
    have hne1 : df1.rows.isEmpty = false := by
      cases hrows : df1.rows with
      | nil => exact absurd hrows hr1
      | cons a t => simp
    have hne2 : df2.rows.isEmpty = false := by
      cases hrows : df2.rows with
      | nil => exact absurd hrows hr2
      | cons a t => simp
    have hd1 : processar_dados adjust idemp nowStr df1 (stripSpaces c1.name)
        pasta_temp = (("", []), none) := by
      simp [processar_dados, processar_dados_inner, hmiss]
    have ho1 : processaConsulta env adjust idemp nowStr pasta_temp 0 c1 =
        ⟨stripSpaces c1.name, "", [], 0⟩ := by
      simp [processaConsulta, executar_consulta, execLoop, h1, hne1, hd1]
    have hpath := processar_dados_ok_path adjust idemp nowStr df2
      (stripSpaces c2.name) pasta_temp hok
    have ho2 : (processaConsulta env adjust idemp nowStr pasta_temp 0 c2).pasta =
        pasta_temp ++ "/" ++ stripSpaces c2.name ∧
        (processaConsulta env adjust idemp nowStr pasta_temp 0 c2).nome =
          stripSpaces c2.name := by
      constructor <;> simp [processaConsulta, executar_consulta, execLoop, h2, hne2, hpath]
    have hpne : (processaConsulta env adjust idemp nowStr pasta_temp 0 c2).pasta ≠ "" := by
      rw [ho2.1]; exact append_slash_ne_empty pasta_temp _
    have hfold : (executar_consultas env adjust idemp nowStr [c1, c2] pasta_temp
        paralela).resultados =
        [(stripSpaces c2.name, pasta_temp ++ "/" ++ stripSpaces c2.name)] := by
      simp only [executar_consultas, List.map_cons, List.map_nil, List.foldl_cons,
        List.foldl_nil]
      rw [ho1]
      have hstep1 : runStep ⟨[], []⟩ ⟨stripSpaces c1.name, "", [], 0⟩ = ⟨[], []⟩ := by
        simp [runStep]
      rw [hstep1]
      cases hpar : paralela <;>
        simp [runStep, hpne, ho2.1, ho2.2, insertOW, append_slash_ne_empty pasta_temp]
    rw [hfold]
    constructor
    · have : (stripSpaces c2.name == stripSpaces c1.name) = false := by
        simp [Ne.symm hnames]
      simp [lookupD, List.find?, this]
    · simp [lookupD, List.find?]

/-- Witness for C4: a two-query run where the `Vendas` adjustment strips every
column (hence `idEmpresa`) while `Compras` keeps the identity adjustment. -/
theorem c4_validation_error_isolated_witness :
    lookupD (executar_consultas
      (fun _ q _ => if q == "q1" then .ok dfOneRow else .ok dfOneRow)
      (fun nome => if nome == "Vendas" then dropAllAdj else idAdjustment)
      "1" "now" [⟨"Vendas", "q1"⟩, ⟨"Compras", "q2"⟩] "/tmp" false).resultados
      (stripSpaces "Vendas") = none ∧
    lookupD (executar_consultas
      (fun _ q _ => if q == "q1" then .ok dfOneRow else .ok dfOneRow)
      (fun nome => if nome == "Vendas" then dropAllAdj else idAdjustment)
      "1" "now" [⟨"Vendas", "q1"⟩, ⟨"Compras", "q2"⟩] "/tmp" false).resultados
      (stripSpaces "Compras") = some ("/tmp" ++ "/" ++ stripSpaces "Compras") :=
  c4_validation_error_isolated.2
    (fun _ q _ => if q == "q1" then .ok dfOneRow else .ok dfOneRow)
    (fun nome => if nome == "Vendas" then dropAllAdj else idAdjustment)
    "1" "now" "/tmp" false ⟨"Vendas", "q1"⟩ ⟨"Compras", "q2"⟩ dfOneRow dfOneRow
    (by decide) rfl (by decide) (by decide) rfl (by decide) (by decide)

/-- Witness for C5: one connectivity failure followed by a query error aborts
after the second attempt with a single backoff sleep; and dropping an
always-failing first query leaves the run result of the remaining query
untouched. -/
theorem c5_other_error_aborts_witness :
    executar_consulta
      (fun n => if n == 0 then .opError else .otherError)
      (fun _ => idAdjustment) "1" "now" "Vendas" "/tmp" =
      ⟨"", [], none, 2, List.replicate 1 5⟩ ∧
    (executar_consultas (fun _ _ _ => .otherError) (fun _ => idAdjustment)
      "1" "now" [⟨"Vendas", "q1"⟩, ⟨"Compras", "q2"⟩] "/tmp" true).resultados =
      (executar_consultas (fun _ _ _ => .otherError) (fun _ => idAdjustment)
        "1" "now" [⟨"Compras", "q2"⟩] "/tmp" true).resultados :=
  ⟨c5_other_error_aborts.1 (fun n => if n == 0 then .opError else .otherError)
      (fun _ => idAdjustment) "1" "now" "Vendas" "/tmp" 1 (by decide)
      (fun j hj => by
        have hj0 : j = 0 := by omega
        subst hj0
        rfl) rfl,
    (c5_other_error_aborts.2 (fun _ _ _ => .otherError) (fun _ => idAdjustment)
      "1" "now" "/tmp" true ⟨"Vendas", "q1"⟩ [⟨"Compras", "q2"⟩] rfl).1⟩

/-! ## Lemmas about row updates -/

/-- Reading back the column just set. -/
theorem getV_setV_self (r : Row) (c : ColName) (v : Cell) :
    getV (setV r c v) c = v := by
  induction r with
  | nil => simp [setV, getV]
  | cons p t ih =>
    obtain ⟨c', v'⟩ := p
    by_cases h : c' = c
    · simp [setV, getV, h]
    · have h' : (c' == c) = false := by simp [h]
      simp [setV, getV, h', ih]

/-- Setting one column does not change any other column. -/
theorem getV_setV_ne (r : Row) (c c' : ColName) (v : Cell) (h : c' ≠ c) :
    getV (setV r c v) c' = getV r c' := by
  induction r with
  | nil =>
    have h' : (c == c') = false := by simp [Ne.symm h]
    simp [setV, getV, h']
  | cons p t ih =>
    obtain ⟨c0, v0⟩ := p
    by_cases h0 : c0 = c
    · have h1 : (c0 == c) = true := by simp [h0]
      have h2 : (c == c') = false := by simp [Ne.symm h]
      have h3 : (c0 == c') = false := by simp [h0, Ne.symm h]
      simp [setV, getV, h1, h2, h3]
    · have h1 : (c0 == c) = false := by simp [h0]
      by_cases h4 : c0 = c'
      · subst h4
        simp [setV, getV, h1]
      · have h5 : (c0 == c') = false := by simp [h4]
        simp [setV, getV, h1, h5, ih]

/-- The date column picked by lines 184-187 is always one of the two fixed
names of the mapping. -/
theorem coluna_data_cases (nome : String) (df : DataFrame) (c : ColName)
    (h : coluna_data nome df = some c) :
    c = "DataVenda" ∨ c = "DataEmissaoNF" := by
  unfold coluna_data at h
  split at h
  · exact Or.inl (Option.some.inj h).symm
  · split at h
    · exact Or.inr (Option.some.inj h).symm
    · exact absurd h (by simp)

/-- In every row produced by the `Ano`/`Mes` derivation, `Ano` holds the
4-char slice at offset 0 and `Mes` the 2-char slice at offset 5 of the text
of the date column of that same row. -/
theorem derivarAnoMes_spec (df : DataFrame) (c : ColName)
    (hA : c ≠ "Ano") (hM : c ≠ "Mes") :
    ∀ r ∈ (derivarAnoMes df c).rows,
      getV r "Ano" = .s ((cellToStr (getV r c)).take 4) ∧
      getV r "Mes" = .s (((cellToStr (getV r c)).drop 5).take 2) := by
  intro r hr
  simp only [derivarAnoMes, DataFrame.withColF, List.map_map, List.mem_map,
    Function.comp] at hr
  obtain ⟨r0, _, hr0⟩ := hr
  subst hr0
  have hc1 : getV (setV r0 "Ano" (.s ((cellToStr (getV r0 c)).take 4))) c =
      getV r0 c := getV_setV_ne _ _ _ _ hA
  constructor
  · rw [getV_setV_ne _ _ _ _ (by decide : ("Ano" : String) ≠ "Mes"),
      getV_setV_self, getV_setV_ne _ _ _ _ hM, hc1]
  · rw [getV_setV_self, getV_setV_ne _ _ _ _ hM, hc1]

/-- **C7**: the dataset named `Vendas` uses the `DataVenda` column and the
dataset named `Compras` uses `DataEmissaoNF` when present in the schema (and
no date column otherwise); the derived `Ano` column is the 4-character slice
at offset 0 and the `Mes` column the 2-character slice at offset 5 of the
date column's text representation; the Partition Key Set is exactly
`[idEmpresa]` when no date column is found and exactly
`[idEmpresa, Ano, Mes]` when one is. -/
theorem c7_partition_key_derivation :
    (∀ df : DataFrame, coluna_data "Vendas" df =
      if df.hasCol "DataVenda" then some "DataVenda" else none) ∧
    (∀ df : DataFrame, coluna_data "Compras" df =
      if df.hasCol "DataEmissaoNF" then some "DataEmissaoNF" else none) ∧
    (∀ (df : DataFrame) (nome c nowStr idemp : String),
      coluna_data nome df = some c →
      ∀ r ∈ (augmentar df nome nowStr idemp).rows,
        getV r "Ano" = .s ((cellToStr (getV r c)).take 4) ∧
        getV r "Mes" = .s (((cellToStr (getV r c)).drop 5).take 2)) ∧
    (∀ (adjust : String → TypeAdjustment) (idemp nowStr : String) (df : DataFrame)
        (nome pasta_temp pasta : String) (parts : List String) (m : Materialized),
      processar_dados adjust idemp nowStr df nome pasta_temp = ((pasta, parts), some m) →
      m.pcols = if (coluna_data nome df).isSome then ["idEmpresa", "Ano", "Mes"]
        else ["idEmpresa"]) := by
  refine ⟨?_, ?_, ?_, ?_⟩
  · intro df
    by_cases h : df.hasCol "DataVenda" <;> simp [coluna_data, h]
  · intro df
    by_cases h : df.hasCol "DataEmissaoNF" <;> simp [coluna_data, h]
  · intro df nome c nowStr idemp hcd r hr
    have hcases := coluna_data_cases nome df c hcd
    have hA : c ≠ "Ano" := by rcases hcases with h | h <;> simp [h]
    have hM : c ≠ "Mes" := by rcases hcases with h | h <;> simp [h]
    apply derivarAnoMes_spec _ _ hA hM
    simpa [augmentar, hcd] using hr
  · intro adjust idemp nowStr df nome pasta_temp pasta parts m hok
    unfold processar_dados at hok
    cases heq : processar_dados_inner adjust idemp nowStr df nome pasta_temp with
    | error e => rw [heq] at hok; simp at hok
    | ok x =>
      rw [heq] at hok
      obtain ⟨p, pr, mm⟩ := x
      simp only [Prod.mk.injEq, Option.some.injEq] at hok
      obtain ⟨⟨-, -⟩, hm⟩ := hok
      subst hm
      simp only [processar_dados_inner] at heq
      split at heq
      · simp only [Except.ok.injEq, Prod.mk.injEq] at heq
        obtain ⟨-, -, hmm⟩ := heq
        rw [← hmm]
        cases hcd : (coluna_data nome df).isSome <;> simp [hcd]
      · simp at heq

/-- A concrete one-row `Vendas` frame with a `DataVenda` column. -/
def dfW : DataFrame :=
  { schema := [("DataVenda", .otherType)],
    rows := [[("DataVenda", Cell.s "2024-03-15")]] }

/-- The dataset `processar_dados` materializes for `dfW`. -/
def mW : Materialized :=
  ((processar_dados (fun _ => idAdjustment) "77" "now" dfW "Vendas" "/tmp").2).getD
    ⟨"", [], [], []⟩

/-- Witness for C7 at the concrete `Vendas` frame `dfW`. -/
theorem c7_partition_key_derivation_witness :
    getV ((augmentar dfW "Vendas" "now" "77").rows.headD []) "Ano" =
      .s ((cellToStr (getV ((augmentar dfW "Vendas" "now" "77").rows.headD [])
        "DataVenda")).take 4) ∧
    mW.pcols = if (coluna_data "Vendas" dfW).isSome then ["idEmpresa", "Ano", "Mes"]
      else ["idEmpresa"] :=
  ⟨(c7_partition_key_derivation.2.2.1 dfW "Vendas" "DataVenda" "now" "77" rfl
      ((augmentar dfW "Vendas" "now" "77").rows.headD []) (by decide)).1,
    c7_partition_key_derivation.2.2.2 (fun _ => idAdjustment) "77" "now" dfW "Vendas"
      "/tmp" (processar_dados (fun _ => idAdjustment) "77" "now" dfW "Vendas" "/tmp").1.1
      (processar_dados (fun _ => idAdjustment) "77" "now" dfW "Vendas" "/tmp").1.2 mW
      (by rfl)⟩

/-! ## Row preservation through the materialization pipeline -/

/-- The `HoraVenda` normalization maps rows one-to-one. -/
theorem tratarHoraVenda_length (df : DataFrame) :
    (tratarHoraVenda df).rows.length = df.rows.length := by
  unfold tratarHoraVenda
  split
  · split <;> simp [DataFrame.mapCol]
  · rfl

/-- Schema augmentation maps rows one-to-one. -/
theorem augmentar_length (df : DataFrame) (nome nowStr idemp : String) :
    (augmentar df nome nowStr idemp).rows.length = df.rows.length := by
  unfold augmentar
  split <;>
    simp [derivarAnoMes, castUtf8, DataFrame.mapCol, DataFrame.withColF,
      injetarColunas, DataFrame.withLit, tratarHoraVenda_length]

/-- Grouping a list by a key function is lossless: over all occurring keys,
the group sizes sum to the list's length. -/
theorem length_eq_sum_group_lengths {α : Type} (l : List α) (f : α → String) :
    ∑ p ∈ (l.map f).toFinset, (l.filter (fun a => f a == p)).length = l.length := by
  have hcount : ∀ p, (l.filter (fun a => f a == p)).length = (l.map f).count p := by
    intro p
    rw [← l.countP_eq_length_filter, List.count, List.countP_map]
    rfl
  calc ∑ p ∈ (l.map f).toFinset, (l.filter (fun a => f a == p)).length
      = ∑ p ∈ (l.map f).toFinset, (l.map f).count p :=
        Finset.sum_congr rfl (fun p _ => hcount p)
    _ = (l.map f).length := by
        have := Multiset.toFinset_sum_count_eq ((l.map f : List String) : Multiset String)
        simp only [Multiset.coe_count, Multiset.coe_card] at this
        exact this
    _ = l.length := l.length_map f

/-- **C1**: for every non-empty raw result whose materialization succeeds,
the materialized dataset preserves every row: the written rows are in
one-to-one correspondence with the raw rows (equal counts), each written row
belongs to a partition directory exactly when that directory is the one
determined by the row's values for the Partition Key Set columns (so it lies
in exactly one partition), and the row counts of all partition directories
sum to the raw result's row count — no loss, no duplication. -/
theorem c1_rows_preserved (adjust : String → TypeAdjustment) (idemp nowStr : String)
    (df : DataFrame) (nome pasta_temp pasta : String) (parts : List String)
    (m : Materialized) (_hne : df.rows ≠ [])
    (hok : processar_dados adjust idemp nowStr df nome pasta_temp =
      ((pasta, parts), some m)) :
    m.rows.length = df.rows.length ∧
    (∀ r ∈ m.rows, ∀ p, r ∈ partRows m p ↔ p = rowPartitionPath m r) ∧
    ∑ p ∈ (m.rows.map (rowPartitionPath m)).toFinset, (partRows m p).length =
      df.rows.length := by
  have hrows : m.rows.length = df.rows.length := by
    unfold processar_dados at hok
    cases heq : processar_dados_inner adjust idemp nowStr df nome pasta_temp with
    | error e => rw [heq] at hok; simp at hok
    | ok x =>
      rw [heq] at hok
      obtain ⟨p, pr, mm⟩ := x
      simp only [Prod.mk.injEq, Option.some.injEq] at hok
      obtain ⟨⟨-, -⟩, hm⟩ := hok
      subst hm
      simp only [processar_dados_inner] at heq
      split at heq
      · simp only [Except.ok.injEq, Prod.mk.injEq] at heq
        obtain ⟨-, -, hmm⟩ := heq
        rw [← hmm]
        simp [applyAdj, augmentar_length]
      · simp at heq
  refine ⟨hrows, ?_, ?_⟩
  · intro r hr p
    simp only [partRows, List.mem_filter, hr, true_and]
    constructor
    · intro h
      exact (beq_iff_eq.mp h).symm
    · intro h
      exact beq_iff_eq.mpr h.symm
  · simp only [partRows]
    rw [length_eq_sum_group_lengths m.rows (rowPartitionPath m)]
    exact hrows

/-- Witness for C1 at a concrete three-row `Vendas` frame spanning two
partitions. -/
theorem c1_rows_preserved_witness :
    ((processar_dados (fun _ => idAdjustment) "77" "now"
      ⟨[("DataVenda", .otherType)],
        [[("DataVenda", Cell.s "2024-03-15")], [("DataVenda", Cell.s "2023-11-02")],
         [("DataVenda", Cell.s "2024-03-20")]]⟩ "Vendas" "/tmp").2.getD
      ⟨"", [], [], []⟩).rows.length = 3 :=
  (c1_rows_preserved (fun _ => idAdjustment) "77" "now"
    ⟨[("DataVenda", .otherType)],
      [[("DataVenda", Cell.s "2024-03-15")], [("DataVenda", Cell.s "2023-11-02")],
       [("DataVenda", Cell.s "2024-03-20")]]⟩ "Vendas" "/tmp"
    (processar_dados (fun _ => idAdjustment) "77" "now"
      ⟨[("DataVenda", .otherType)],
        [[("DataVenda", Cell.s "2024-03-15")], [("DataVenda", Cell.s "2023-11-02")],
         [("DataVenda", Cell.s "2024-03-20")]]⟩ "Vendas" "/tmp").1.1
    (processar_dados (fun _ => idAdjustment) "77" "now"
      ⟨[("DataVenda", .otherType)],
        [[("DataVenda", Cell.s "2024-03-15")], [("DataVenda", Cell.s "2023-11-02")],
         [("DataVenda", Cell.s "2024-03-20")]]⟩ "Vendas" "/tmp").1.2
    ((processar_dados (fun _ => idAdjustment) "77" "now"
      ⟨[("DataVenda", .otherType)],
        [[("DataVenda", Cell.s "2024-03-15")], [("DataVenda", Cell.s "2023-11-02")],
         [("DataVenda", Cell.s "2024-03-20")]]⟩ "Vendas" "/tmp").2.getD
      ⟨"", [], [], []⟩) (by decide) (by rfl)).1

/-! ## Shallow partition listing (C9) -/

/-- Number of path separators in a string. -/
def slashes (s : String) : Nat := s.toList.count '/'

/-- Separator count distributes over string concatenation. -/
theorem slashes_append (a b : String) : slashes (a ++ b) = slashes a + slashes b := by
  simp [slashes, String.toList, String.data_append, List.count_append]

/-- **C9**: the partition set a successful materialization returns is exactly
the one-level listing of the dataset root: its elements are the immediate
child directories (one per distinct first partition segment of a written
row), and — when a date column was found, so that the on-disk layout nests
`Ano`/`Mes` below the tenant directory — none of the nested `Year/Month`
row directories is ever in the returned set (the listing does not recurse). -/
theorem c9_shallow_partition_listing (adjust : String → TypeAdjustment)
    (idemp nowStr : String) (df : DataFrame) (nome pasta_temp pasta : String)
    (parts : List String) (m : Materialized)
    (hok : processar_dados adjust idemp nowStr df nome pasta_temp =
      ((pasta, parts), some m)) :
    parts = ((m.rows.map (firstSeg m)).dedup).map (fun d => m.root ++ "/" ++ d) ∧
    (∀ x ∈ parts, ∃ r ∈ m.rows, x = m.root ++ "/" ++ firstSeg m r) ∧
    ((coluna_data nome df).isSome = true →
      (∀ r ∈ m.rows, ∀ c ∈ m.pcols, slashes (cellToStr (getV r c)) = 0) →
      ∀ r ∈ m.rows, rowPartitionPath m r ∉ parts) := by
  have hparts : parts = listParticoes m ∧
      m.pcols = "idEmpresa" :: (if (coluna_data nome df).isSome then ["Ano", "Mes"]
        else []) := by
    unfold processar_dados at hok
    cases heq : processar_dados_inner adjust idemp nowStr df nome pasta_temp with
    | error e => rw [heq] at hok; simp at hok
    | ok x =>
      rw [heq] at hok
      obtain ⟨p, pr, mm⟩ := x
      simp only [Prod.mk.injEq, Option.some.injEq] at hok
      obtain ⟨⟨-, hpr⟩, hm⟩ := hok
      subst hm
      simp only [processar_dados_inner] at heq
      split at heq
      · simp only [Except.ok.injEq, Prod.mk.injEq] at heq
        obtain ⟨-, hpr2, hmm⟩ := heq
        constructor
        · rw [← hpr, ← hpr2, ← hmm]
        · rw [← hmm]
      · simp at heq
  refine ⟨by rw [hparts.1, listParticoes], ?_, ?_⟩
  · intro x hx
    rw [hparts.1] at hx
    simp only [listParticoes, List.mem_map] at hx
    obtain ⟨d, hd, hdx⟩ := hx
    obtain ⟨r, hr, hrd⟩ := List.mem_map.mp (List.mem_dedup.mp hd)
    exact ⟨r, hr, by rw [← hdx, ← hrd]⟩
  · intro hcd hns r hr hmem
    rw [hparts.1] at hmem
    simp only [listParticoes, List.mem_map] at hmem
    obtain ⟨d, hd, hdx⟩ := hmem
    obtain ⟨r', hr', hrd⟩ := List.mem_map.mp (List.mem_dedup.mp hd)
    have hpcols : m.pcols = ["idEmpresa", "Ano", "Mes"] := by
      rw [hparts.2, hcd]; rfl
    have hlhs : slashes (rowPartitionPath m r) = slashes m.root + 3 := by
      have h1 := hns r hr "idEmpresa" (by rw [hpcols]; simp)
      have h2 := hns r hr "Ano" (by rw [hpcols]; simp)
      have h3 := hns r hr "Mes" (by rw [hpcols]; simp)
      simp only [rowPartitionPath, hpcols, List.foldl_cons, List.foldl_nil]
      simp only [slashes_append, h1, h2, h3]
      have hsl : slashes "/" = 1 := by decide
      have hid : slashes "idEmpresa" = 0 := by decide
      have han : slashes "Ano" = 0 := by decide
      have hme : slashes "Mes" = 0 := by decide
      have heq0 : slashes "=" = 0 := by decide
      omega
    have hrhs : slashes (rowPartitionPath m r) = slashes m.root + 1 := by
      have h1 := hns r' hr' "idEmpresa" (by rw [hpcols]; simp)
      rw [← hdx, ← hrd]
      simp only [firstSeg, hpcols, slashes_append, h1]
      have hsl : slashes "/" = 1 := by decide
      have hid : slashes "idEmpresa" = 0 := by decide
      have heq0 : slashes "=" = 0 := by decide
      omega
    omega

/-- Witness for C9: for the concrete `Vendas` frame `dfW`, the nested
`Ano`/`Mes` partition directory of the written row is not in the returned
partition set. -/
theorem c9_shallow_partition_listing_witness :
    rowPartitionPath mW (mW.rows.headD []) ∉
      (processar_dados (fun _ => idAdjustment) "77" "now" dfW "Vendas" "/tmp").1.2 :=
  (c9_shallow_partition_listing (fun _ => idAdjustment) "77" "now" dfW "Vendas" "/tmp"
    (processar_dados (fun _ => idAdjustment) "77" "now" dfW "Vendas" "/tmp").1.1
    (processar_dados (fun _ => idAdjustment) "77" "now" dfW "Vendas" "/tmp").1.2
    mW (by rfl)).2.2 rfl (by decide) (mW.rows.headD []) (by decide)

/-! ## Time-column normalization (C8) -/

/-- `digCh` is never a space. -/
theorem digCh_ne_space (n : Nat) : digCh n ≠ ' ' := by
  have h : n % 10 < 10 := Nat.mod_lt n (by omega)
  have hall : ∀ k, k < 10 → Char.ofNat (48 + k) ≠ ' ' := by decide
  exact hall (n % 10) h

/-- `digCh` always produces a decimal digit character. -/
theorem digCh_isDigit (n : Nat) : (digCh n).isDigit = true := by
  have h : n % 10 < 10 := Nat.mod_lt n (by omega)
  have hall : ∀ k, k < 10 → (Char.ofNat (48 + k)).isDigit = true := by decide
  exact hall (n % 10) h

/-- The time token spelled out (the `let`s of `timeTok` inlined). -/
theorem timeTok_eq (t : Td) :
    timeTok t =
      (if Int.ediv t.micros 86400000000 < 0 then ['+'] else []) ++
        twoL ((Int.emod t.micros 86400000000).toNat / 1000000 / 3600) ++
        ':' :: twoL ((Int.emod t.micros 86400000000).toNat / 1000000 % 3600 / 60) ++
        ':' :: twoL ((Int.emod t.micros 86400000000).toNat / 1000000 % 60) ++
        (if ((Int.emod t.micros 86400000000).toNat % 1000000) == 0 then []
         else '.' :: sixL ((Int.emod t.micros 86400000000).toNat % 1000000)) := rfl

/-- A clock token assembled around two `:` separators is never empty. -/
theorem clockTok_ne_nil (pre : List Char) (a b c : Nat) (suf : List Char) :
    pre ++ twoL a ++ ':' :: twoL b ++ ':' :: twoL c ++ suf ≠ [] := by
  cases pre <;> simp [twoL]

/-- A clock token contains no space when its affixes do not. -/
theorem clockTok_no_space (pre : List Char) (a b c : Nat) (suf : List Char)
    (hpre : ∀ ch ∈ pre, ch ≠ ' ') (hsuf : ∀ ch ∈ suf, ch ≠ ' ') :
    ∀ ch ∈ pre ++ twoL a ++ ':' :: twoL b ++ ':' :: twoL c ++ suf, ch ≠ ' ' := by
  intro ch hch
  simp only [twoL, List.append_assoc, List.cons_append, List.nil_append,
    List.mem_append, List.mem_cons] at hch
  rcases hch with h | h | h | h | h | h | h | h | h | h <;>
    first
      | exact hpre ch h
      | exact hsuf ch h
      | (subst h; decide)
      | (subst h; exact digCh_ne_space _)

/-- The time token of a timedelta is never empty. -/
theorem timeTok_ne_nil (t : Td) : timeTok t ≠ [] := by
  rw [timeTok_eq]
  exact clockTok_ne_nil _ _ _ _ _

/-- The time token of a timedelta contains no space. -/
theorem timeTok_no_space (t : Td) : ∀ ch ∈ timeTok t, ch ≠ ' ' := by
  rw [timeTok_eq]
  apply clockTok_no_space
  · intro ch hch
    split at hch
    · simp only [List.mem_singleton] at hch
      subst hch; decide
    · simp at hch
  · intro ch hch
    split at hch
    · simp at hch
    · simp only [sixL, List.mem_cons, List.not_mem_nil, or_false] at hch
      rcases hch with h | h | h | h | h | h | h <;>
        first
          | (subst h; decide)
          | (subst h; exact digCh_ne_space _)

/-- `takeWhile` over a satisfied prefix stops exactly at the first failing
element. -/
theorem takeWhile_append_stop (p : Char → Bool) (l1 l2 : List Char) (a : Char)
    (h1 : ∀ x ∈ l1, p x = true) (h2 : p a = false) :
    (l1 ++ a :: l2).takeWhile p = l1 := by
  induction l1 with
  | nil => simp [List.takeWhile_cons, h2]
  | cons x xs ih =>
    have hx : p x = true := h1 x (List.mem_cons_self x xs)
    have hxs : ∀ y ∈ xs, p y = true := fun y hy => h1 y (List.mem_cons_of_mem x hy)
    simp [List.takeWhile_cons, hx, ih hxs]

/-- Python's `split()[-1]` of a string of the form `<prefix><space><token>`
with a non-empty, space-free token is that token. -/
theorem lastTok_append_token (B tok : List Char) (hne : tok ≠ [])
    (hns : ∀ ch ∈ tok, ch ≠ ' ') : lastTok (B ++ ' ' :: tok) = tok := by
  unfold lastTok
  rw [List.reverse_append, List.reverse_cons, List.append_assoc]
  cases htok : tok.reverse with
  | nil => exact absurd (by simpa using htok) hne
  | cons c cs =>
    have hc : c ∈ tok := by
      have : c ∈ tok.reverse := by rw [htok]; exact List.mem_cons_self c cs
      simpa using this
    have hcne : (c == ' ') = false := by simp [hns c hc]
    show (List.takeWhile (fun x => x != ' ')
      (List.dropWhile (fun x => x == ' ') (c :: (cs ++ ' ' :: B.reverse)))).reverse = tok
    have hall : ∀ x ∈ c :: cs, (x != ' ') = true := by
      intro x hx
      have : x ∈ tok := by
        have : x ∈ tok.reverse := by rw [htok]; exact hx
        simpa using this
      simp [hns x this]
    have hsp : ((' ' : Char) != ' ') = false := by decide
    have hd : List.dropWhile (fun x => x == ' ') (c :: (cs ++ ' ' :: B.reverse)) =
        c :: (cs ++ ' ' :: B.reverse) := by
      simp [List.dropWhile_cons, hcne]
    have ht : List.takeWhile (fun x => x != ' ') (c :: (cs ++ ' ' :: B.reverse)) =
        c :: cs := by
      have := takeWhile_append_stop (fun x => x != ' ') (c :: cs) B.reverse ' ' hall hsp
      simpa using this
    rw [hd, ht, ← htok, List.reverse_reverse]

/-- The timedelta branch of the `HoraVenda` normalization extracts exactly
the time-of-day token of the pandas text representation. -/
theorem tdBranchCell_eq_timeTok (t : Td) :
    tdBranchCell (.td (some t)) = String.mk (timeTok t) := by
  have hsplit : tdStrChars t =
      ((toString (Int.ediv t.micros 86400000000)).toList ++
        [' ', 'd', 'a', 'y', 's']) ++ ' ' :: timeTok t := by
    simp [tdStrChars]
  have : (cellToStr (Cell.td (some t))).toList = tdStrChars t := by
    simp [cellToStr, String.toList]
  rw [tdBranchCell]
  simp only [isNaCell, Bool.false_eq_true, if_neg, ite_false]
  rw [this, hsplit, lastTok_append_token _ _ (timeTok_ne_nil t) (timeTok_no_space t)]

/-- Whatever the regex scan returns is `HH:MM:SS`-shaped. -/
theorem findHMS_shape : ∀ (l : List Char) (s : String),
    findHMS l = some s → isHMSshape s = true := by
  intro l
  induction l with
  | nil => intro s h; simp [findHMS] at h
  | cons x rest ih =>
    intro s h
    rw [findHMS] at h
    cases hm : matchHMSAt (x :: rest) with
    | some s' =>
      rw [hm] at h
      obtain rfl : s' = s := Option.some.inj h
      unfold matchHMSAt at hm
      split at hm
      · split at hm
        · obtain rfl := Option.some.inj hm
          rename_i a b c d e f g hh _ hcond
          simp only [Bool.and_eq_true, beq_iff_eq] at hcond
          obtain ⟨⟨⟨⟨⟨⟨⟨ha, hb⟩, hc⟩, hd⟩, he⟩, hf⟩, hg⟩, hhh⟩ := hcond
          simp [isHMSshape, String.toList, ha, hb, hc, hd, he, hf, hg, hhh]
        · exact absurd hm (by simp)
      · exact absurd hm (by simp)
    | none =>
      rw [hm] at h
      exact ih s h

/-- A successful regex scan returns a contiguous substring of the input. -/
theorem findHMS_infix : ∀ (l : List Char) (s : String),
    findHMS l = some s → s.toList <:+: l := by
  intro l
  induction l with
  | nil => intro s h; simp [findHMS] at h
  | cons x rest ih =>
    intro s h
    rw [findHMS] at h
    cases hm : matchHMSAt (x :: rest) with
    | some s' =>
      rw [hm] at h
      obtain rfl : s' = s := Option.some.inj h
      unfold matchHMSAt at hm
      split at hm
      · split at hm
        · obtain rfl := Option.some.inj hm
          rename_i a b c d e f g hh tail heq _
          refine ⟨[], tail, ?_⟩
          simp only [String.toList, List.nil_append]
          simpa using heq.symm
        · exact absurd hm (by simp)
      · exact absurd hm (by simp)
    | none =>
      rw [hm] at h
      obtain ⟨s1, t1, hs⟩ := ih s h
      exact ⟨x :: s1, t1, by simp [← hs]⟩

/-- A clock token of two-digit groups around two `:` separators is always an
`HH:MM:SS`-shaped string. -/
theorem clockTok_shape (a b c : Nat) :
    isHMSshape (String.mk (twoL a ++ ':' :: twoL b ++ ':' :: twoL c)) = true := by
  simp [isHMSshape, String.toList, twoL, digCh_isDigit]

/-- A string whose character count is not 8 is never `HH:MM:SS`-shaped. -/
theorem isHMSshape_false_of_length (s : String) (h : s.toList.length ≠ 8) :
    isHMSshape s = false := by
  unfold isHMSshape
  split
  · rename_i a b c d e f g hh heq
    exact absurd (by rw [heq]; rfl) h
  · rfl

/-- The character count of the time token: 8, plus one for the sign marker of
a negative duration, plus seven for the fractional suffix of a sub-second
duration. -/
theorem timeTok_length (t : Td) :
    (timeTok t).length =
      (if Int.ediv t.micros 86400000000 < 0 then 1 else 0) + 8 +
        (if ((Int.emod t.micros 86400000000).toNat % 1000000) == 0 then 0 else 7) := by
  rw [timeTok_eq]
  split <;> split <;> simp [twoL, sixL]

/-- Every nonnegative whole-second duration — with no bound on its size, any
whole-day component being dropped by the token extraction — is normalized to
a fixed-width `HH:MM:SS` string. -/
theorem tdBranch_whole_second_shape (sec : Nat) :
    isHMSshape (tdBranchCell (.td (some ⟨(sec : Int) * 1000000⟩))) = true := by
  rw [tdBranchCell_eq_timeTok, timeTok_eq]
  have hd : ¬ Int.ediv ((sec : Int) * 1000000) 86400000000 < 0 := by
    show ¬ ((sec : Int) * 1000000) / 86400000000 < 0
    omega
  have hus : ((Int.emod ((sec : Int) * 1000000) 86400000000).toNat % 1000000) = 0 := by
    show ((((sec : Int) * 1000000) % 86400000000).toNat % 1000000) = 0
    omega
  rw [if_neg hd, hus]
  simp [isHMSshape, String.toList, twoL, digCh_isDigit]

/-- A duration with a sub-second part is never normalized to an
`HH:MM:SS`-shaped string: the fractional suffix makes the token too long. -/
theorem tdBranch_subsecond_not_shaped (t : Td)
    (h : (Int.emod t.micros 86400000000).toNat % 1000000 ≠ 0) :
    isHMSshape (tdBranchCell (.td (some t))) = false := by
  rw [tdBranchCell_eq_timeTok]
  apply isHMSshape_false_of_length
  have hbe : (((Int.emod t.micros 86400000000).toNat % 1000000) == 0) = false := by
    simp [h]
  have hl := timeTok_length t
  rw [hbe] at hl
  simp only [Bool.false_eq_true, if_false] at hl
  have hmk : (String.mk (timeTok t)).toList = timeTok t := rfl
  rw [hmk, hl]
  split <;> omega

/-- A negative duration is never normalized to an `HH:MM:SS`-shaped string:
its token carries the `+` marker of the negative-days rendering. -/
theorem tdBranch_negative_not_shaped (t : Td) (h : t.micros < 0) :
    isHMSshape (tdBranchCell (.td (some t))) = false := by
  rw [tdBranchCell_eq_timeTok]
  apply isHMSshape_false_of_length
  have hd : Int.ediv t.micros 86400000000 < 0 := by
    show t.micros / 86400000000 < 0
    omega
  have hl := timeTok_length t
  rw [if_pos hd] at hl
  have hmk : (String.mk (timeTok t)).toList = timeTok t := rfl
  rw [hmk, hl]
  split <;> omega

/-- **C8 (counterexample)**: the claim says every value of a duration-typed
time-of-day column is converted to a fixed-width `HH:MM:SS` string; for the
duration of 1.5 seconds (pandas text `0 days 00:00:01.500000`) the
normalization of lines 190-191 produces `00:00:01.500000`, which is not an
`HH:MM:SS`-shaped string. -/
theorem c8_time_normalization_counterexample :
    (tratarHoraVenda (DataFrame.mk [("HoraVenda", DType.tdType)]
      [[("HoraVenda", Cell.td (some (Td.mk 1500000)))]])).rows =
      [[("HoraVenda", Cell.s "00:00:01.500000")]] ∧
    isHMSshape "00:00:01.500000" = false := by decide

/-- **C8 (amended)**: the time-column normalization is total and never
raises.  On a duration-typed column each missing value becomes the sentinel
`00:00:00` and each present value becomes the last whitespace-separated
token of its pandas text representation; that token is a fixed-width
`HH:MM:SS` string for every nonnegative whole-second duration (any whole-day
component is silently dropped), and is not `HH:MM:SS`-shaped when the
duration has a sub-second part (fractional suffix) or is negative (sign
marker).  On a free-form text column the first `HH:MM:SS`-shaped substring
of the cell text is extracted, with the same sentinel when no match exists,
so the text branch always yields an `HH:MM:SS`-shaped string. -/
theorem c8_time_normalization :
    (tdBranchCell (.td none) = "00:00:00") ∧
    (∀ t : Td, tdBranchCell (.td (some t)) = String.mk (timeTok t)) ∧
    (∀ sec : Nat, isHMSshape (tdBranchCell (.td (some ⟨(sec : Int) * 1000000⟩))) = true) ∧
    (∀ t : Td, (Int.emod t.micros 86400000000).toNat % 1000000 ≠ 0 →
      isHMSshape (tdBranchCell (.td (some t))) = false) ∧
    (∀ t : Td, t.micros < 0 → isHMSshape (tdBranchCell (.td (some t))) = false) ∧
    (∀ c : Cell, isHMSshape (objBranchCell c) = true) ∧
    (∀ (c : Cell) (s : String), findHMS (cellToStr c).toList = some s →
      objBranchCell c = s ∧ s.toList <:+: (cellToStr c).toList) := by
  refine ⟨rfl, tdBranchCell_eq_timeTok, tdBranch_whole_second_shape,
    tdBranch_subsecond_not_shaped, tdBranch_negative_not_shaped, ?_, ?_⟩
  · intro c
    cases hf : findHMS (cellToStr c).toList with
    | none =>
      simp only [objBranchCell, hf, Option.getD_none]
      decide
    | some s =>
      simp only [objBranchCell, hf, Option.getD_some]
      exact findHMS_shape _ _ hf
  · intro c s hf
    refine ⟨?_, findHMS_infix _ _ hf⟩
    simp only [objBranchCell, String.toList] at hf ⊢
    simp [hf]

/-- Witness for the amended C8: the 1.5-second duration and a negative
duration are not rendered `HH:MM:SS`-shaped, while the extraction branch
picks the embedded `12:34:56`. -/
theorem c8_time_normalization_witness :
    isHMSshape (tdBranchCell (.td (some (Td.mk 1500000)))) = false ∧
    isHMSshape (tdBranchCell (.td (some (Td.mk (-1000000))))) = false ∧
    objBranchCell (.s "um 12:34:56 dois") = "12:34:56" :=
  ⟨c8_time_normalization.2.2.2.1 (Td.mk 1500000) (by decide),
    c8_time_normalization.2.2.2.2.1 (Td.mk (-1000000)) (by decide),
    (c8_time_normalization.2.2.2.2.2.2 (.s "um 12:34:56 dois") "12:34:56" (by decide)).1⟩
